import Mathlib

/-!
Verification of the frame-sampling / prompt-building core of the
video-to-prompt page.  JavaScript numbers are embedded as exact
rationals (`ℚ`), strings as Lean `String`s, and the single-threaded
DOM event dispatch used by the seek helper as an explicit state
machine.  Definitions follow the source functions line by line.
-/

namespace VideoPrompt

/-- Video metadata recorded once the media element reports it
(`handleVideoLoaded` only stores it when `video.duration` is truthy,
so a stored duration is never zero). -/
structure VideoMeta where
  duration : ℚ
  width : ℕ
  height : ℕ

/-- `maxSceneSamples` constant from the source. -/
def maxSceneSamples : ℤ := 10

/-- The `sceneCount` memo: `0` when no metadata is loaded, otherwise
`min 10 (max 3 (round ((duration / 20) * (granularity + 1))))`. -/
def sceneCount (videoMeta : Option VideoMeta) (granularity : ℕ) : ℤ :=
  match videoMeta with
  | none => 0
  | some m =>
    min maxSceneSamples (max 3 (round (m.duration / 20 * ((granularity : ℚ) + 1))))

/-- `buildCapturePoints` from the source; the JS falsy guard
`!duration || !sceneCount` becomes an equality test with zero, and the
`for (let i = 1; i <= sceneCount; i += 1)` loop becomes a map over
`List.range` with the index shifted by one. -/
def buildCapturePoints (duration : ℚ) (sceneCount : ℕ) : List ℚ :=
  if duration = 0 ∨ sceneCount = 0 then []
  else
    let safeDuration := max (duration - 0.5) duration
    let step := safeDuration / ((sceneCount : ℚ) + 1)
    (List.range sceneCount).map fun i : ℕ => min (duration - 0.1) (step * ((i : ℚ) + 1))

lemma max_sub_half (d : ℚ) : max (d - 0.5) d = d :=
  max_eq_right (by norm_num)

lemma buildCapturePoints_eq (d : ℚ) (n : ℕ) (hd : d ≠ 0) (hn : n ≠ 0) :
    buildCapturePoints d n =
      (List.range n).map fun i : ℕ => min (d - 0.1) (d / ((n : ℚ) + 1) * ((i : ℚ) + 1)) := by
  rw [buildCapturePoints, if_neg (by tauto)]
  simp only [max_sub_half]

/-- C1 counterexample: at duration `1/20` (which is `> 0`) and scene count `1`
(which is `≥ 1`), the single capture point is `-1/20`, which is not in
`[0, 1/20)`, so the claimed guarantee fails as stated. -/
theorem capture_points_cex :
    (0 : ℚ) < 1/20 ∧ 1 ≤ (1:ℕ) ∧
    ¬ (∀ x ∈ buildCapturePoints (1/20) 1, 0 ≤ x ∧ x < 1/20) := by
  refine ⟨by norm_num, le_refl 1, ?_⟩
  intro hall
  have := hall (-(1/20)) (by norm_num [buildCapturePoints, List.range_succ])
  norm_num at this

/-- C1 (amended): for a scene count `n ≥ 1` and a duration large enough for
the trailing clamp at `duration - 0.1` not to interfere (namely `d ≥ 0.1`
when `n = 1`, and `d > (n+1)/20` when `n ≥ 2`), `buildCapturePoints d n`
has length exactly `n`, is strictly increasing, and all its values lie in
`[0, d)`. -/
theorem capture_points_spec (d : ℚ) (n : ℕ) (hn : 1 ≤ n)
    (h1 : n = 1 → 1/10 ≤ d) (h2 : 2 ≤ n → ((n : ℚ) + 1) / 20 < d) :
    (buildCapturePoints d n).length = n ∧
    (buildCapturePoints d n).Pairwise (· < ·) ∧
    ∀ x ∈ buildCapturePoints d n, 0 ≤ x ∧ x < d := by
  have hd10 : (1:ℚ)/10 ≤ d := by
    rcases Nat.lt_or_ge n 2 with h | h
    · exact h1 (by omega)
    · have hc : (2:ℚ) ≤ (n:ℚ) := by exact_mod_cast h
      have := h2 h
      linarith
  have hd : 0 < d := lt_of_lt_of_le (by norm_num) hd10
  have h01 : (0.1 : ℚ) = 1/10 := by norm_num
  rw [buildCapturePoints_eq d n (ne_of_gt hd) (by omega)]
  refine ⟨by rw [List.length_map, List.length_range], ?_, ?_⟩
  · rw [List.pairwise_map]
    refine (List.pairwise_lt_range n).imp_of_mem ?_
    intro a b ha hb hab
    have hbn : b < n := List.mem_range.1 hb
    have han2 : 2 ≤ n := by omega
    have hd20 := h2 han2
    have hstep : (0:ℚ) < d / ((n:ℚ)+1) := by positivity
    have ha1 : (a:ℚ) + 1 ≤ (n:ℚ) - 1 := by
      have h' : ((a:ℕ):ℚ) + 2 ≤ (n:ℚ) := by exact_mod_cast (by omega : a + 2 ≤ n)
      linarith
    have hkey : d / ((n:ℚ)+1) * ((a:ℚ)+1) < d - 0.1 := by
      rw [h01, div_mul_eq_mul_div, div_lt_iff₀ (by positivity)]
      nlinarith [mul_le_mul_of_nonneg_left ha1 hd.le, hd20]
    calc min (d - 0.1) (d / ((n:ℚ)+1) * ((a:ℚ)+1))
        = d / ((n:ℚ)+1) * ((a:ℚ)+1) := min_eq_right hkey.le
      _ < min (d - 0.1) (d / ((n:ℚ)+1) * ((b:ℚ)+1)) := by
          refine lt_min hkey ?_
          have hab' : (a:ℚ) + 1 < (b:ℚ) + 1 := by
            have : (a:ℚ) < (b:ℚ) := by exact_mod_cast hab
            linarith
          exact mul_lt_mul_of_pos_left hab' hstep
  · intro x hx
    simp only [List.mem_map, List.mem_range] at hx
    obtain ⟨i, hi, rfl⟩ := hx
    constructor
    · refine le_min ?_ (by positivity)
      rw [h01]; linarith
    · refine lt_of_le_of_lt (min_le_left _ _) ?_
      rw [h01]; linarith

/-- Witness for the amended C1 at `d = 2`, `n = 3`. -/
theorem capture_points_spec_witness :
    (buildCapturePoints 2 3).length = 3 ∧
    (buildCapturePoints 2 3).Pairwise (· < ·) ∧
    ∀ x ∈ buildCapturePoints 2 3, 0 ≤ x ∧ x < 2 :=
  capture_points_spec 2 3 (by norm_num) (fun h => by norm_num) (fun h => by norm_num)

/-- C6: the "safety margin" `max (duration - 0.5) duration` used by
`buildCapturePoints` always equals `duration`, so for any positive duration
the capture points coincide with the ones computed from the duration itself:
the intended half-second trailing margin never changes any capture point. -/
theorem capture_margin_noop (d : ℚ) (n : ℕ) (hd : 0 < d) :
    max (d - 0.5) d = d ∧
    buildCapturePoints d n =
      (List.range n).map fun i : ℕ => min (d - 0.1) (d / ((n : ℚ) + 1) * ((i : ℚ) + 1)) := by
  refine ⟨max_sub_half d, ?_⟩
  rcases eq_or_ne n 0 with rfl | hn
  · simp [buildCapturePoints]
  · exact buildCapturePoints_eq d n (ne_of_gt hd) hn

/-- Witness for C6 at `d = 2`, `n = 3`. -/
theorem capture_margin_noop_witness :
    max ((2:ℚ) - 0.5) 2 = 2 ∧
    buildCapturePoints 2 3 =
      (List.range 3).map fun i : ℕ => min ((2:ℚ) - 0.1) (2 / (((3:ℕ) : ℚ) + 1) * ((i : ℚ) + 1)) :=
  capture_margin_noop 2 3 (by norm_num)

/-- C3: with loaded metadata and positive duration, the scene count equals
`min 10 (max 3 (round ((duration / 20) * (granularity + 1))))` and lies in
`[3, 10]` (in particular it is nonzero); with no metadata it is `0`. -/
theorem scene_count_spec (g : ℕ) (m : VideoMeta) (hg1 : 1 ≤ g) (hg7 : g ≤ 7)
    (hd : 0 < m.duration) :
    sceneCount none g = 0 ∧
    sceneCount (some m) g = min 10 (max 3 (round (m.duration / 20 * ((g : ℚ) + 1)))) ∧
    3 ≤ sceneCount (some m) g ∧ sceneCount (some m) g ≤ 10 ∧ sceneCount (some m) g ≠ 0 := by
  have hbound : 3 ≤ sceneCount (some m) g ∧ sceneCount (some m) g ≤ 10 := by
    constructor
    · exact le_min (by norm_num [maxSceneSamples]) (le_max_left _ _)
    · exact min_le_left _ _
  exact ⟨rfl, rfl, hbound.1, hbound.2, by omega⟩

/-- Witness for C3 at granularity `4` and a 40-second 640×360 video. -/
theorem scene_count_spec_witness :
    sceneCount none 4 = 0 ∧
    sceneCount (some ⟨40, 640, 360⟩) 4 =
      min 10 (max 3 (round ((40:ℚ) / 20 * (((4:ℕ) : ℚ) + 1)))) ∧
    3 ≤ sceneCount (some ⟨40, 640, 360⟩) 4 ∧
    sceneCount (some ⟨40, 640, 360⟩) 4 ≤ 10 ∧
    sceneCount (some ⟨40, 640, 360⟩) 4 ≠ 0 :=
  scene_count_spec 4 ⟨40, 640, 360⟩ (by norm_num) (by norm_num) (by norm_num)

/-- C9: the scene count is monotone non-decreasing in the duration and in the
granularity. -/
theorem scene_count_monotone (d₁ d₂ : ℚ) (g₁ g₂ w h : ℕ)
    (hd1 : 0 < d₁) (hdd : d₁ ≤ d₂) (hg1 : 1 ≤ g₁) (hgg : g₁ ≤ g₂) (hg7 : g₂ ≤ 7) :
    sceneCount (some ⟨d₁, w, h⟩) g₁ ≤ sceneCount (some ⟨d₂, w, h⟩) g₁ ∧
    sceneCount (some ⟨d₁, w, h⟩) g₁ ≤ sceneCount (some ⟨d₁, w, h⟩) g₂ := by
  have round_le_round : ∀ x y : ℚ, x ≤ y → round x ≤ round y := by
    intro x y hxy
    rw [round_eq, round_eq]
    exact Int.floor_le_floor (by linarith)
  constructor
  · refine min_le_min le_rfl (max_le_max le_rfl (round_le_round _ _ ?_))
    have : d₁ / 20 ≤ d₂ / 20 := by linarith
    exact mul_le_mul_of_nonneg_right this (by positivity)
  · refine min_le_min le_rfl (max_le_max le_rfl (round_le_round _ _ ?_))
    have hc : ((g₁:ℕ):ℚ) + 1 ≤ ((g₂:ℕ):ℚ) + 1 := by
      have : ((g₁:ℕ):ℚ) ≤ ((g₂:ℕ):ℚ) := by exact_mod_cast hgg
      linarith
    exact mul_le_mul_of_nonneg_left hc (by positivity)

/-- Witness for C9 at durations `10 ≤ 20` and granularities `2 ≤ 5`. -/
theorem scene_count_monotone_witness :
    sceneCount (some ⟨10, 640, 360⟩) 2 ≤ sceneCount (some ⟨20, 640, 360⟩) 2 ∧
    sceneCount (some ⟨10, 640, 360⟩) 2 ≤ sceneCount (some ⟨10, 640, 360⟩) 5 :=
  scene_count_monotone 10 20 2 5 640 360 (by norm_num) (by norm_num) (by norm_num)
    (by norm_num) (by norm_num)

/-! ## The colour / brightness analyzer -/

/-- JavaScript-style truncation towards zero (used by the `%` operator). -/
def jsTrunc (q : ℚ) : ℤ := if 0 ≤ q then ⌊q⌋ else ⌈q⌉

/-- The JavaScript remainder operator `x % y` on numbers: the remainder
carries the sign of the dividend. -/
def jsRem (x y : ℚ) : ℚ := x - y * jsTrunc (x / y)

/-- `rgbToHsl` from the source, returning the `[h, s, l]` triple.  The JS
`((gNorm - bNorm) / delta) % 6` uses the JS remainder; `Math.round` is
round-half-up, which is Mathlib `round`. -/
def rgbToHsl (r g b : ℚ) : ℚ × ℚ × ℚ :=
  let rNorm := r / 255
  let gNorm := g / 255
  let bNorm := b / 255
  let maxC := max rNorm (max gNorm bNorm)
  let minC := min rNorm (min gNorm bNorm)
  let delta := maxC - minC
  let hue : ℚ :=
    if delta ≠ 0 then
      let h0 : ℚ :=
        if maxC = rNorm then jsRem ((gNorm - bNorm) / delta) 6
        else if maxC = gNorm then (bNorm - rNorm) / delta + 2
        else (rNorm - gNorm) / delta + 4
      let h1 : ℚ := (round (h0 * 60) : ℤ)
      if h1 < 0 then h1 + 360 else h1
    else 0
  let l := (maxC + minC) / 2
  let s : ℚ := if delta = 0 then 0 else delta / (1 - |2 * l - 1|)
  (hue, s, l)

/-- `describeColor` from the source: the ordered descriptor table with
first-match-wins semantics, rendered as an `if` chain in the literal order
of the `colorDescriptors` array. -/
def describeColor (r g b : ℚ) : String :=
  let hsl := rgbToHsl r g b
  let h := hsl.1
  let s := hsl.2.1
  let l := hsl.2.2
  if 200 ≤ h ∧ h < 240 ∧ 0.2 < s then "crisp Arctic blue"
  else if 260 ≤ h ∧ h < 300 ∧ 0.35 < s then "electric violet"
  else if 30 ≤ h ∧ h < 60 ∧ 0.55 < l then "sunlit amber"
  else if 130 ≤ h ∧ h < 170 ∧ 0.25 < s then "deep emerald"
  else if 210 ≤ h ∧ h < 250 ∧ l < 0.45 then "moody indigo"
  else if 20 ≤ h ∧ h < 50 ∧ s < 0.25 then "faded sepia"
  else if 330 ≤ h ∨ h < 15 then "soft rose"
  else if s < 0.12 then "graphite neutral"
  else "balanced palette"

/-- The result record of `analyzeFrame`.  `contrast` and `saturation` are
optional because the degenerate (zero-samples) branch of the source returns
an object without those two keys. -/
structure SceneAnalysis where
  palette : String
  lighting : String
  contrast : Option String
  saturation : Option String
  mood : String
  energy : String
deriving DecidableEq

/-- Byte stride used by `analyzeFrame`:
`Math.max(4, Math.floor(totalPixels / 55000) * 4)`. -/
def frameStride (width height : ℕ) : ℕ := max 4 (width * height / 55000 * 4)

/-- The indices visited by the loop
`for (let i = 0; i < data.length; i += stride)`: exactly the multiples of
`stride` below `data.length` (the stride is always positive). -/
def sampledIndices (len stride : ℕ) : List ℕ :=
  (List.range len).filter fun i => i % stride == 0

/-- The accumulator variables of the sampling loop of `analyzeFrame`. -/
structure FrameAcc where
  rSum : ℚ
  gSum : ℚ
  bSum : ℚ
  brightnessSum : ℚ
  minBrightness : ℚ
  maxBrightness : ℚ
  sampled : ℕ
deriving DecidableEq

/-- Reading one byte of the RGBA buffer (channel values `0..255`). -/
def byteAt (data : List ℕ) (i : ℕ) : ℚ := (data.getD i 0 : ℕ)

/-- One iteration of the sampling loop of `analyzeFrame`. -/
def stepAcc (data : List ℕ) (acc : FrameAcc) (i : ℕ) : FrameAcc :=
  let r := byteAt data i
  let g := byteAt data (i + 1)
  let b := byteAt data (i + 2)
  let brightness := 0.299 * r + 0.587 * g + 0.114 * b
  { rSum := acc.rSum + r
    gSum := acc.gSum + g
    bSum := acc.bSum + b
    brightnessSum := acc.brightnessSum + brightness
    minBrightness := if brightness < acc.minBrightness then brightness else acc.minBrightness
    maxBrightness := if acc.maxBrightness < brightness then brightness else acc.maxBrightness
    sampled := acc.sampled + 1 }

/-- The completed sampling loop of `analyzeFrame` (initial values
`minBrightness = 255`, `maxBrightness = 0`, sums and count zero). -/
def frameAcc (data : List ℕ) (width height : ℕ) : FrameAcc :=
  (sampledIndices data.length (frameStride width height)).foldl (stepAcc data)
    ⟨0, 0, 0, 0, 255, 0, 0⟩

/-- `analyzeFrame` from the source. -/
def analyzeFrame (data : List ℕ) (width height : ℕ) : SceneAnalysis :=
  let acc := frameAcc data width height
  if acc.sampled = 0 then
    { palette := "balanced palette", lighting := "neutral lighting",
      contrast := none, saturation := none,
      mood := "steady atmosphere", energy := "controlled pacing" }
  else
    let avgR := acc.rSum / (acc.sampled : ℚ)
    let avgG := acc.gSum / (acc.sampled : ℚ)
    let avgB := acc.bSum / (acc.sampled : ℚ)
    let avgBrightness := acc.brightnessSum / (acc.sampled : ℚ)
    let contrast := (acc.maxBrightness - acc.minBrightness) / 255
    let hsl := rgbToHsl avgR avgG avgB
    let s := hsl.2.1
    let l := hsl.2.2
    let paletteDescriptor := describeColor avgR avgG avgB
    let lighting :=
      if 200 < avgBrightness then "high-key lighting"
      else if 150 < avgBrightness then "well-lit scene"
      else if 100 < avgBrightness then "balanced lighting"
      else if 60 < avgBrightness then "low-key lighting"
      else "shadow-heavy lighting"
    let contrastDescriptor :=
      if 0.55 < contrast then "high contrast visuals"
      else if 0.35 < contrast then "structured contrast"
      else "soft contrast"
    let saturationDescriptor :=
      if 0.6 < s then "vivid saturation"
      else if 0.35 < s then "rich tones"
      else if 0.2 < s then "muted palette"
      else "desaturated look"
    let moodDescriptor :=
      if 0.65 < l then "uplifting mood"
      else if 0.45 < l then "balanced mood"
      else if 0.28 < l then "introspective mood"
      else "brooding atmosphere"
    let energy :=
      if 0.55 < contrast ∧ 0.35 < s then "kinetic energy"
      else if 0.35 < contrast then "dynamic pacing"
      else "contemplative pacing"
    { palette := paletteDescriptor, lighting := lighting,
      contrast := some contrastDescriptor, saturation := some saturationDescriptor,
      mood := moodDescriptor, energy := energy }

lemma foldl_sampled (data : List ℕ) (l : List ℕ) (acc : FrameAcc) :
    (l.foldl (stepAcc data) acc).sampled = acc.sampled + l.length := by
  induction l generalizing acc with
  | nil => simp
  | cons i rest ih =>
    rw [List.foldl_cons, ih]
    simp [stepAcc]
    omega

lemma zero_mem_sampledIndices (len stride : ℕ) (hlen : 0 < len) :
    0 ∈ sampledIndices len stride := by
  simp [sampledIndices, List.mem_filter, List.mem_range, hlen]

lemma rgbToHsl_zero : rgbToHsl 0 0 0 = (0, 0, 0) := by
  norm_num [rgbToHsl]

lemma describeColor_zero : describeColor 0 0 0 = "soft rose" := by
  rw [describeColor, rgbToHsl_zero]
  norm_num

lemma foldl_black (data : List ℕ) (l : List ℕ)
    (hl : ∀ i ∈ l, byteAt data i = 0 ∧ byteAt data (i+1) = 0 ∧ byteAt data (i+2) = 0)
    (m : ℚ) (hm : 0 ≤ m) (k : ℕ) :
    l.foldl (stepAcc data) ⟨0, 0, 0, 0, m, 0, k⟩ =
      ⟨0, 0, 0, 0, if l = [] then m else 0, 0, k + l.length⟩ := by
  induction l generalizing m k with
  | nil => simp
  | cons i rest ih =>
    obtain ⟨hr, hg, hb⟩ := hl i (List.mem_cons_self i rest)
    have hstep : stepAcc data ⟨0,0,0,0,m,0,k⟩ i = ⟨0,0,0,0, 0, 0, k+1⟩ := by
      rw [stepAcc]
      simp only [hr, hg, hb]
      norm_num
      rcases hm.lt_or_eq with hlt | heq
      · simp [hlt]
      · simp [← heq]
    rw [List.foldl_cons, hstep,
      ih (fun j hj => hl j (List.mem_cons_of_mem _ hj)) 0 le_rfl (k+1)]
    have hif : (if rest = [] then (0:ℚ) else 0) = 0 := by split <;> rfl
    simp only [hif, List.cons_ne_nil, if_false, List.length_cons]
    congr 1
    omega

lemma frameStride_dvd (w h : ℕ) : 4 ∣ frameStride w h := by
  rw [frameStride]
  generalize w * h / 55000 = k
  omega

lemma analyzeFrame_black_eq (w h : ℕ) (data : List ℕ)
    (hlen : data.length = 4 * (w * h)) (hwh : 0 < w * h)
    (hblack : ∀ i, i % 4 ≠ 3 → data.getD i 0 = 0) :
    analyzeFrame data w h =
      { palette := "soft rose", lighting := "shadow-heavy lighting",
        contrast := some "soft contrast", saturation := some "desaturated look",
        mood := "brooding atmosphere", energy := "contemplative pacing" } := by
  have hreads : ∀ i ∈ sampledIndices data.length (frameStride w h),
      byteAt data i = 0 ∧ byteAt data (i+1) = 0 ∧ byteAt data (i+2) = 0 := by
    intro i hi
    have hmod : i % frameStride w h = 0 := by
      have := (List.mem_filter.1 hi).2
      simpa using this
    have h4i : 4 ∣ i := dvd_trans (frameStride_dvd w h) (Nat.dvd_of_mod_eq_zero hmod)
    obtain ⟨c, rfl⟩ := h4i
    refine ⟨?_, ?_, ?_⟩ <;> rw [byteAt]
    · rw [hblack (4 * c) (by omega)]; norm_num
    · rw [hblack (4 * c + 1) (by omega)]; norm_num
    · rw [hblack (4 * c + 2) (by omega)]; norm_num
  have hne : sampledIndices data.length (frameStride w h) ≠ [] :=
    List.ne_nil_of_mem (zero_mem_sampledIndices _ _ (by omega))
  have hacc : frameAcc data w h =
      ⟨0, 0, 0, 0, 0, 0, (sampledIndices data.length (frameStride w h)).length⟩ := by
    rw [frameAcc, foldl_black data _ hreads 255 (by norm_num) 0]
    simp [hne]
  have hs : (sampledIndices data.length (frameStride w h)).length ≠ 0 := by
    simpa [List.length_eq_zero] using hne
  rw [analyzeFrame, hacc]
  simp only [hs, if_false, zero_div, sub_zero, zero_sub, rgbToHsl_zero, describeColor_zero]
  norm_num

/-- The one-pixel black RGBA buffer satisfies the all-black hypothesis. -/
lemma blackPixel_hyp : ∀ i, i % 4 ≠ 3 → ([0, 0, 0, 255] : List ℕ).getD i 0 = 0 := by
  intro i hi
  have : i = 0 ∨ i = 1 ∨ i = 2 ∨ 4 ≤ i := by omega
  rcases this with rfl | rfl | rfl | h4
  · rfl
  · rfl
  · rfl
  · rw [List.getD_eq_default]
    simpa using h4

/-- C2 counterexample: on the one-pixel all-black RGBA buffer the palette is
"soft rose" (the `h ≥ 330 ∨ h < 15` rule fires first at hue 0), not the
claimed "graphite neutral". -/
theorem analyze_frame_black_cex :
    (analyzeFrame [0, 0, 0, 255] 1 1).palette = "soft rose" ∧
    (analyzeFrame [0, 0, 0, 255] 1 1).palette ≠ "graphite neutral" := by
  have h := analyzeFrame_black_eq 1 1 [0, 0, 0, 255] (by norm_num) (by norm_num) blackPixel_hyp
  rw [h]
  exact ⟨rfl, by decide⟩

/-- C2 (amended): `analyzeFrame` on a non-empty all-black RGBA buffer returns
lighting "shadow-heavy lighting", contrast "soft contrast", saturation
"desaturated look", mood "brooding atmosphere" — but palette "soft rose",
because the hue of pure black is 0 and the "soft rose" rule (`h ≥ 330 ∨
h < 15`) precedes "graphite neutral" in the first-match-wins table. -/
theorem analyze_frame_black (w h : ℕ) (data : List ℕ)
    (hlen : data.length = 4 * (w * h)) (hwh : 0 < w * h)
    (hblack : ∀ i, i % 4 ≠ 3 → data.getD i 0 = 0) :
    analyzeFrame data w h =
      { palette := "soft rose", lighting := "shadow-heavy lighting",
        contrast := some "soft contrast", saturation := some "desaturated look",
        mood := "brooding atmosphere", energy := "contemplative pacing" } :=
  analyzeFrame_black_eq w h data hlen hwh hblack

/-- Witness for the amended C2 on the one-pixel black buffer. -/
theorem analyze_frame_black_witness :
    analyzeFrame [0, 0, 0, 255] 1 1 =
      { palette := "soft rose", lighting := "shadow-heavy lighting",
        contrast := some "soft contrast", saturation := some "desaturated look",
        mood := "brooding atmosphere", energy := "contemplative pacing" } :=
  analyze_frame_black 1 1 [0, 0, 0, 255] (by norm_num) (by norm_num) blackPixel_hyp

lemma analyzeFrame_sampled_ne (w h : ℕ) (data : List ℕ) (hd : 0 < data.length) :
    (frameAcc data w h).sampled ≠ 0 := by
  rw [frameAcc, foldl_sampled]
  have := List.ne_nil_of_mem (zero_mem_sampledIndices data.length (frameStride w h) hd)
  have hlen : (sampledIndices data.length (frameStride w h)).length ≠ 0 := by
    simpa [List.length_eq_zero] using this
  omega

/-- C5: on an empty pixel buffer `analyzeFrame` returns exactly the fixed
neutral analysis, with no saturation/contrast fields; on any buffer from
which at least one pixel is sampled (equivalently, any non-empty buffer,
since index 0 is always sampled) both fields are present. -/
theorem analyze_frame_degenerate (w h w' h' : ℕ) (data : List ℕ) (hd : 0 < data.length) :
    analyzeFrame [] w h =
      { palette := "balanced palette", lighting := "neutral lighting",
        contrast := none, saturation := none,
        mood := "steady atmosphere", energy := "controlled pacing" } ∧
    (analyzeFrame data w' h').saturation.isSome ∧
    (analyzeFrame data w' h').contrast.isSome := by
  refine ⟨rfl, ?_⟩
  have hs := analyzeFrame_sampled_ne w' h' data hd
  rw [analyzeFrame]
  simp only [hs, if_false]
  exact ⟨rfl, rfl⟩

/-- Witness for C5 at the one-pixel black buffer. -/
theorem analyze_frame_degenerate_witness :
    analyzeFrame [] 1 1 =
      { palette := "balanced palette", lighting := "neutral lighting",
        contrast := none, saturation := none,
        mood := "steady atmosphere", energy := "controlled pacing" } ∧
    (analyzeFrame [0, 0, 0, 255] 1 1).saturation.isSome ∧
    (analyzeFrame [0, 0, 0, 255] 1 1).contrast.isSome :=
  analyze_frame_degenerate 1 1 1 1 [0, 0, 0, 255] (by norm_num)

lemma ceil_div_succ (s n : ℕ) (hs : 0 < s) :
    (n + s) / s = (n + s - 1) / s + if n % s = 0 then 1 else 0 := by
  obtain ⟨q, r, hr, rfl⟩ : ∃ q r, r < s ∧ n = s * q + r :=
    ⟨n / s, n % s, Nat.mod_lt _ hs, (Nat.div_add_mod n s).symm⟩
  have hmod : (s * q + r) % s = r := by
    rw [Nat.mul_add_mod, Nat.mod_eq_of_lt hr]
  rcases Nat.eq_zero_or_pos r with rfl | hrpos
  · have h1 : (s * q + 0 + s) / s = q + 1 := by
      rw [Nat.add_zero, Nat.add_div_right _ hs, Nat.mul_div_cancel_left _ hs]
    have h2 : (s * q + 0 + s - 1) / s = q := by
      have he : s * q + 0 + s - 1 = s * q + (s - 1) := by omega
      rw [he, Nat.mul_add_div hs, Nat.div_eq_of_lt (by omega)]
      omega
    rw [h1, h2, hmod]
    simp
  · have h1 : (s * q + r + s) / s = q + 1 := by
      rw [Nat.add_div_right _ hs, Nat.mul_add_div hs, Nat.div_eq_of_lt hr]
    have h2 : (s * q + r + s - 1) / s = q + 1 := by
      have he : s * q + r + s - 1 = s * q + (r + s - 1) := by omega
      rw [he, Nat.mul_add_div hs]
      have h3 : (r + s - 1) / s = 1 := Nat.div_eq_of_lt_le (by omega) (by omega)
      omega
    rw [h1, h2, hmod, if_neg (by omega)]

/-- The `i += stride` loop over a buffer of length `len` visits
`⌈len / stride⌉` indices. -/
lemma sampledIndices_length (len s : ℕ) (hs : 0 < s) :
    (sampledIndices len s).length = (len + s - 1) / s := by
  induction len with
  | zero =>
    have h0 : (s - 1) / s = 0 := Nat.div_eq_of_lt (by omega)
    simp [sampledIndices, h0]
  | succ n ih =>
    rw [sampledIndices, List.range_succ, List.filter_append, List.length_append]
    rw [sampledIndices] at ih
    rw [ih]
    have he : n + 1 + s - 1 = n + s := by omega
    rw [he, ceil_div_succ s n hs]
    by_cases hmod : n % s = 0 <;> simp [hmod]

/-- The byte-stride formula as the claim words it — `max(4, ⌊w·h/55000⌋) * 4`,
with the `* 4` applied after the `max` — written down only for comparison
with `frameStride`, which is what the code computes. -/
def specStride (width height : ℕ) : ℕ := max 4 (width * height / 55000) * 4

/-- C4 counterexample: for a 1×1 frame the code's stride is
`max(4, ⌊1/55000⌋·4) = 4` bytes, while the claimed formula
`max(4, ⌊1/55000⌋)·4` gives 16 bytes. -/
theorem analyze_frame_stride_cex :
    frameStride 1 1 = 4 ∧ specStride 1 1 = 16 ∧ frameStride 1 1 ≠ specStride 1 1 := by
  decide

/-- C4 (amended): the byte stride is `max(4, ⌊w·h/55000⌋·4)` (the `* 4`
is inside the `max`), and with that stride, for any RGBA buffer of a frame
with at least 55000 pixels, the number of sampled pixels lies between
55000 and 110000 — roughly constant regardless of input size. -/
theorem analyze_frame_stride (w h : ℕ) (data : List ℕ)
    (hlen : data.length = 4 * (w * h)) (hbig : 55000 ≤ w * h) :
    frameStride w h = max 4 (w * h / 55000 * 4) ∧
    55000 ≤ (frameAcc data w h).sampled ∧ (frameAcc data w h).sampled ≤ 110000 := by
  refine ⟨rfl, ?_⟩
  have hk1 : 1 ≤ w * h / 55000 := (Nat.one_le_div_iff (by norm_num)).2 hbig
  have hstride : frameStride w h = 4 * (w * h / 55000) := by
    rw [frameStride]; omega
  have hspos : 0 < 4 * (w * h / 55000) := by omega
  have hcount : (frameAcc data w h).sampled
      = (4 * (w * h) + 4 * (w * h / 55000) - 1) / (4 * (w * h / 55000)) := by
    rw [frameAcc, foldl_sampled, hlen, hstride, sampledIndices_length _ _ hspos]
    simp
  rw [hcount]
  constructor
  · rw [Nat.le_div_iff_mul_le hspos]
    omega
  · have hlt : (4 * (w * h) + 4 * (w * h / 55000) - 1) / (4 * (w * h / 55000)) < 110001 := by
      rw [Nat.div_lt_iff_lt_mul hspos]
      omega
    omega

/-- Witness for the amended C4 at a 55000×1 frame (220000-byte buffer). -/
theorem analyze_frame_stride_witness :
    frameStride 55000 1 = max 4 (55000 * 1 / 55000 * 4) ∧
    55000 ≤ (frameAcc (List.replicate 220000 0) 55000 1).sampled ∧
    (frameAcc (List.replicate 220000 0) 55000 1).sampled ≤ 110000 :=
  analyze_frame_stride 55000 1 (List.replicate 220000 0) (by rw [List.length_replicate])
    (by norm_num)

/-! ## `seekVideo`: event-driven promise settlement -/

/-- The two media-element signals `seekVideo` listens for. -/
inductive SeekEvent
  | seeked
  | error
deriving DecidableEq

/-- How the promise returned by `seekVideo` settles. -/
inductive SeekOutcome
  | resolved
  | rejectedSeekFailed
deriving DecidableEq

/-- Observable state of one `seekVideo` call: promise settlement, how many
times `resolve` / `reject` have been invoked, which of the two handlers are
still registered, and the element's `currentTime`. -/
structure SeekState where
  settled : Option SeekOutcome
  resolveCalls : ℕ
  rejectCalls : ℕ
  seekedHandler : Bool
  errorHandler : Bool
  currentTime : ℚ
deriving DecidableEq

/-- `seekVideo video time` registers the two one-shot listeners and then
sets `video.currentTime = time`; the promise starts pending. -/
def seekVideoStart (time : ℚ) : SeekState :=
  { settled := none, resolveCalls := 0, rejectCalls := 0,
    seekedHandler := true, errorHandler := true, currentTime := time }

/-- Promise settlement: the first `resolve`/`reject` call wins, any later
call leaves the settled value unchanged. -/
def settle (st : Option SeekOutcome) (o : SeekOutcome) : Option SeekOutcome :=
  match st with
  | none => some o
  | some o' => some o'

/-- Dispatch of one media event: if the matching listener is still
registered it is removed (`{ once: true }`) and run; `handleSeeked` /
`handleError` first run `cleanup` (removing both listeners) and then
resolve resp. reject the promise. -/
def dispatch (st : SeekState) (e : SeekEvent) : SeekState :=
  match e with
  | .seeked =>
    if st.seekedHandler then
      { st with
          seekedHandler := false
          errorHandler := false
          resolveCalls := st.resolveCalls + 1
          settled := settle st.settled SeekOutcome.resolved }
    else st
  | .error =>
    if st.errorHandler then
      { st with
          seekedHandler := false
          errorHandler := false
          rejectCalls := st.rejectCalls + 1
          settled := settle st.settled SeekOutcome.rejectedSeekFailed }
    else st

/-- A whole `seekVideo` call followed by an arbitrary sequence of
`seeked` / `error` signals from the platform. -/
def runSeek (time : ℚ) (events : List SeekEvent) : SeekState :=
  events.foldl dispatch (seekVideoStart time)

/-- The outcome dictated by whichever signal arrives first. -/
def firstOutcome (events : List SeekEvent) : Option SeekOutcome :=
  match events with
  | [] => none
  | SeekEvent.seeked :: _ => some SeekOutcome.resolved
  | SeekEvent.error :: _ => some SeekOutcome.rejectedSeekFailed

lemma dispatch_inert (s : SeekState) (hs : s.seekedHandler = false)
    (he : s.errorHandler = false) (e : SeekEvent) : dispatch s e = s := by
  cases e <;> simp [dispatch, hs, he]

lemma foldl_dispatch_inert (s : SeekState) (hs : s.seekedHandler = false)
    (he : s.errorHandler = false) (l : List SeekEvent) : l.foldl dispatch s = s := by
  induction l with
  | nil => rfl
  | cons e rest ih => rw [List.foldl_cons, dispatch_inert s hs he e, ih]

/-- C8: `seekVideo` sets the playback position; whichever of the two
signals arrives first settles the promise (resolving on `seeked`,
rejecting on `error`), the promise is settled by exactly one
resolve/reject call no matter how many further signals arrive, and both
listeners are deregistered as soon as it settles. -/
theorem seek_video_spec (t : ℚ) (events : List SeekEvent) :
    (runSeek t events).currentTime = t ∧
    (runSeek t events).settled = firstOutcome events ∧
    (runSeek t events).resolveCalls + (runSeek t events).rejectCalls =
      (if events = [] then 0 else 1) ∧
    (events ≠ [] →
      (runSeek t events).seekedHandler = false ∧ (runSeek t events).errorHandler = false) := by
  match events with
  | [] =>
    exact ⟨rfl, rfl, rfl, fun hne => absurd rfl hne⟩
  | SeekEvent.seeked :: rest =>
    have hrun : runSeek t (SeekEvent.seeked :: rest) =
        { settled := some SeekOutcome.resolved
          resolveCalls := 1
          rejectCalls := 0
          seekedHandler := false
          errorHandler := false
          currentTime := t } := by
      rw [runSeek, List.foldl_cons]
      exact foldl_dispatch_inert _ rfl rfl rest
    rw [hrun]
    exact ⟨rfl, rfl, rfl, fun _ => ⟨rfl, rfl⟩⟩
  | SeekEvent.error :: rest =>
    have hrun : runSeek t (SeekEvent.error :: rest) =
        { settled := some SeekOutcome.rejectedSeekFailed
          resolveCalls := 0
          rejectCalls := 1
          seekedHandler := false
          errorHandler := false
          currentTime := t } := by
      rw [runSeek, List.foldl_cons]
      exact foldl_dispatch_inert _ rfl rfl rest
    rw [hrun]
    exact ⟨rfl, rfl, rfl, fun _ => ⟨rfl, rfl⟩⟩

/-- Witness for C8: a `seeked` signal followed by a late `error` signal. -/
theorem seek_video_spec_witness :
    (runSeek 5 [SeekEvent.seeked, SeekEvent.error]).currentTime = 5 ∧
    (runSeek 5 [SeekEvent.seeked, SeekEvent.error]).settled =
      firstOutcome [SeekEvent.seeked, SeekEvent.error] ∧
    (runSeek 5 [SeekEvent.seeked, SeekEvent.error]).resolveCalls +
        (runSeek 5 [SeekEvent.seeked, SeekEvent.error]).rejectCalls =
      (if ([SeekEvent.seeked, SeekEvent.error] : List SeekEvent) = [] then 0 else 1) ∧
    ([SeekEvent.seeked, SeekEvent.error] ≠ ([] : List SeekEvent) →
      (runSeek 5 [SeekEvent.seeked, SeekEvent.error]).seekedHandler = false ∧
      (runSeek 5 [SeekEvent.seeked, SeekEvent.error]).errorHandler = false) :=
  seek_video_spec 5 [SeekEvent.seeked, SeekEvent.error]



/-! ## `formatTime` -/

/-- A JavaScript number as far as `formatTime` observes it: finite (exact
rational) or one of the non-finite values rejected by `Number.isFinite`. -/
inductive JSNumber
  | finite (val : ℚ)
  | nan
  | posInf
  | negInf

/-- Decimal digits of a natural number (the JS `Number.prototype.toString`
on a non-negative integer). -/
def natToString (n : ℕ) : String := ⟨Nat.toDigits 10 n⟩

/-- JS `toString` on an integral number: a leading minus sign for negative
values. -/
def intToString (i : ℤ) : String :=
  if i < 0 then "-" ++ natToString i.natAbs else natToString i.toNat

/-- `String.prototype.padStart(len, c)`. -/
def jsPadStart (s : String) (len : ℕ) (c : Char) : String :=
  ⟨List.replicate (len - s.data.length) c ++ s.data⟩

/-- `formatTime` from the source: `Number.isFinite` guard, then
`minutes = ⌊s/60⌋`, `secs = ⌊s % 60⌋` (JS remainder), `ms = ⌊frac·1000⌋`,
rendered as `pad(minutes):pad(secs).pad(⌊ms/10⌋)` with two-digit
zero-padding. -/
def formatTime (x : JSNumber) : String :=
  match x with
  | .nan => "00:00"
  | .posInf => "00:00"
  | .negInf => "00:00"
  | .finite seconds =>
    let minutes : ℤ := ⌊seconds / 60⌋
    let secs : ℤ := ⌊jsRem seconds 60⌋
    let ms : ℤ := ⌊(seconds - (⌊seconds⌋ : ℚ)) * 1000⌋
    jsPadStart (intToString minutes) 2 '0' ++ ":" ++
      jsPadStart (intToString secs) 2 '0' ++ "." ++
      jsPadStart (intToString ⌊(ms : ℚ) / 10⌋) 2 '0'

/-- Evaluation of `formatTime` on the finite input `-5`. -/
lemma formatTime_neg_five : formatTime (JSNumber.finite (-5)) = "-1:-5.00" := by
  have h1 : (⌊(-5 : ℚ) / 60⌋ : ℤ) = -1 := by norm_num
  have h2 : jsTrunc ((-5 : ℚ) / 60) = 0 := by
    rw [jsTrunc, if_neg (by norm_num)]
    norm_num
  have h3 : jsRem (-5 : ℚ) 60 = -5 := by
    rw [jsRem, h2]
    norm_num
  have h4 : (⌊(-5 : ℚ)⌋ : ℤ) = -5 := by norm_num
  simp only [formatTime, h1, h3, h4]
  norm_num
  decide



lemma digitChar_isDigit (n : ℕ) (h : n < 10) : (Nat.digitChar n).isDigit = true := by
  interval_cases n <;> decide

lemma toDigitsCore_digits (fuel : ℕ) :
    ∀ (n : ℕ) (acc : List Char), (∀ c ∈ acc, c.isDigit = true) →
      ∀ c ∈ Nat.toDigitsCore 10 fuel n acc, c.isDigit = true := by
  induction fuel with
  | zero =>
    intro n acc hacc c hc
    exact hacc c hc
  | succ f ih =>
    intro n acc hacc c hc
    rw [Nat.toDigitsCore] at hc
    have hcons : ∀ x ∈ Nat.digitChar (n % 10) :: acc, x.isDigit = true := by
      intro x hx
      rcases List.mem_cons.1 hx with rfl | hx'
      · exact digitChar_isDigit _ (Nat.mod_lt _ (by omega))
      · exact hacc x hx'
    by_cases h0 : n / 10 = 0
    · rw [if_pos h0] at hc
      exact hcons c hc
    · rw [if_neg h0] at hc
      exact ih (n / 10) _ hcons c hc

lemma natToString_digits (n : ℕ) : ∀ c ∈ (natToString n).data, c.isDigit = true := by
  intro c hc
  exact toDigitsCore_digits (n+1) n [] (by intro x hx; cases hx) c hc

lemma toDigitsCore_small (f n : ℕ) (acc : List Char) (h : n < 10) :
    Nat.toDigitsCore 10 (f+1) n acc = Nat.digitChar n :: acc := by
  rw [Nat.toDigitsCore]
  rw [Nat.div_eq_of_lt h, Nat.mod_eq_of_lt h]
  simp

lemma toDigitsCore_two (f n : ℕ) (acc : List Char) (h10 : 10 ≤ n) (h : n < 100) :
    Nat.toDigitsCore 10 (f+2) n acc =
      Nat.digitChar (n / 10) :: Nat.digitChar (n % 10) :: acc := by
  rw [Nat.toDigitsCore]
  have hne : ¬ (n / 10 = 0) := by omega
  rw [if_neg hne]
  rw [toDigitsCore_small f (n / 10) _ (by omega)]

lemma natToString_length_le_two (n : ℕ) (h : n < 100) : (natToString n).data.length ≤ 2 := by
  rw [natToString]
  rcases Nat.lt_or_ge n 10 with h10 | h10
  · rw [Nat.toDigits, toDigitsCore_small n n [] h10]
    simp
  · obtain ⟨m, rfl⟩ : ∃ m, n = m + 10 := ⟨n - 10, by omega⟩
    rw [Nat.toDigits]
    have he : m + 10 + 1 = (m + 9) + 2 := by omega
    rw [he, toDigitsCore_two (m + 9) (m + 10) [] (by omega) h]
    simp

lemma padTwo_len_ge (s : String) : 2 ≤ (jsPadStart s 2 '0').data.length := by
  show 2 ≤ (List.replicate (2 - s.data.length) '0' ++ s.data).length
  rw [List.length_append, List.length_replicate]
  omega

lemma padTwo_len_eq (s : String) (h : s.data.length ≤ 2) :
    (jsPadStart s 2 '0').data.length = 2 := by
  show (List.replicate (2 - s.data.length) '0' ++ s.data).length = 2
  rw [List.length_append, List.length_replicate]
  omega

lemma padTwo_digits (s : String) (hs : ∀ c ∈ s.data, c.isDigit = true) :
    ∀ c ∈ (jsPadStart s 2 '0').data, c.isDigit = true := by
  intro c hc
  rw [jsPadStart] at hc
  rcases List.mem_append.1 hc with hrep | hdat
  · rw [List.eq_of_mem_replicate hrep]
    decide
  · exact hs c hdat

lemma intToString_nonneg (i : ℤ) (h : 0 ≤ i) : intToString i = natToString i.toNat := by
  rw [intToString, if_neg (by omega)]



/-- C10 (amended): `formatTime` returns `"00:00"` on every non-finite
input, and for every finite `q ≥ 0` the result decomposes as
`mf ++ ":" ++ sf ++ "." ++ cf` where all three fields consist of decimal
digits only, the second and centisecond fields are exactly two characters,
and the minute field is at least two characters (zero-padded).  For
negative finite inputs the claimed digit shape fails. -/
theorem format_time_spec (q : ℚ) (hq : 0 ≤ q) :
    formatTime JSNumber.nan = "00:00" ∧
    formatTime JSNumber.posInf = "00:00" ∧
    formatTime JSNumber.negInf = "00:00" ∧
    ∃ mf sf cf : List Char,
      (∀ c ∈ mf, c.isDigit = true) ∧ (∀ c ∈ sf, c.isDigit = true) ∧
      (∀ c ∈ cf, c.isDigit = true) ∧
      2 ≤ mf.length ∧ sf.length = 2 ∧ cf.length = 2 ∧
      (formatTime (JSNumber.finite q)).data = mf ++ ':' :: (sf ++ '.' :: cf) := by
  refine ⟨rfl, rfl, rfl, ?_⟩
  have hq60 : (0:ℚ) ≤ q / 60 := by positivity
  have hmin0 : (0:ℤ) ≤ ⌊q / 60⌋ := Int.floor_nonneg.2 hq60
  have htr : jsTrunc (q / 60) = ⌊q / 60⌋ := by rw [jsTrunc, if_pos hq60]
  have hq60mul : q / 60 * 60 = q := div_mul_cancel₀ q (by norm_num)
  have hfl : ((⌊q / 60⌋ : ℤ) : ℚ) ≤ q / 60 := Int.floor_le _
  have hfl2 : q / 60 < (⌊q / 60⌋ : ℚ) + 1 := Int.lt_floor_add_one _
  have hrem0 : (0:ℚ) ≤ jsRem q 60 := by
    rw [jsRem, htr]
    nlinarith [hfl, hq60mul]
  have hrem60 : jsRem q 60 < 60 := by
    rw [jsRem, htr]
    nlinarith [hfl2, hq60mul]
  have hsec0 : (0:ℤ) ≤ ⌊jsRem q 60⌋ := Int.floor_nonneg.2 hrem0
  have hsec60 : ⌊jsRem q 60⌋ < 60 := Int.floor_lt.2 (by exact_mod_cast hrem60)
  have hfrac0 : (0:ℚ) ≤ q - (⌊q⌋ : ℚ) := by
    have := Int.floor_le q
    linarith
  have hfrac1 : q - (⌊q⌋ : ℚ) < 1 := by
    have := Int.lt_floor_add_one q
    linarith
  have hms0 : (0:ℤ) ≤ ⌊(q - (⌊q⌋ : ℚ)) * 1000⌋ :=
    Int.floor_nonneg.2 (by nlinarith)
  have hms1000 : ⌊(q - (⌊q⌋ : ℚ)) * 1000⌋ < 1000 :=
    Int.floor_lt.2 (by push_cast; nlinarith)
  have hc0 : (0:ℤ) ≤ ⌊((⌊(q - (⌊q⌋ : ℚ)) * 1000⌋ : ℤ) : ℚ) / 10⌋ := by
    refine Int.floor_nonneg.2 ?_
    have : ((⌊(q - (⌊q⌋ : ℚ)) * 1000⌋ : ℤ) : ℚ) ≥ 0 := by exact_mod_cast hms0
    positivity
  have hc100 : ⌊((⌊(q - (⌊q⌋ : ℚ)) * 1000⌋ : ℤ) : ℚ) / 10⌋ < 100 := by
    refine Int.floor_lt.2 ?_
    rw [div_lt_iff₀ (by norm_num)]
    push_cast
    exact_mod_cast (by omega : ⌊(q - (⌊q⌋ : ℚ)) * 1000⌋ < (1000 : ℤ))
  refine ⟨(jsPadStart (natToString (⌊q / 60⌋).toNat) 2 '0').data,
    (jsPadStart (natToString (⌊jsRem q 60⌋).toNat) 2 '0').data,
    (jsPadStart (natToString (⌊((⌊(q - (⌊q⌋ : ℚ)) * 1000⌋ : ℤ) : ℚ) / 10⌋).toNat) 2 '0').data,
    padTwo_digits _ (natToString_digits _),
    padTwo_digits _ (natToString_digits _),
    padTwo_digits _ (natToString_digits _),
    padTwo_len_ge _,
    padTwo_len_eq _ (natToString_length_le_two _ (by omega)),
    padTwo_len_eq _ (natToString_length_le_two _ (by omega)),
    ?_⟩
  have hfmt : formatTime (JSNumber.finite q) =
      jsPadStart (intToString ⌊q / 60⌋) 2 '0' ++ ":" ++
        jsPadStart (intToString ⌊jsRem q 60⌋) 2 '0' ++ "." ++
        jsPadStart (intToString ⌊((⌊(q - (⌊q⌋ : ℚ)) * 1000⌋ : ℤ) : ℚ) / 10⌋) 2 '0' := rfl
  rw [hfmt, intToString_nonneg _ hmin0, intToString_nonneg _ hsec0, intToString_nonneg _ hc0]
  simp [String.data_append]


/-- C10 counterexample: on the finite input `-5` the result is
`"-1:-5.00"`, which contains `'-'` and so is not of the claimed zero-padded
`mm:ss.cc` digit shape. -/
theorem format_time_cex :
    formatTime (JSNumber.finite (-5)) = "-1:-5.00" ∧
    ¬ (∀ c ∈ (formatTime (JSNumber.finite (-5))).data,
        c.isDigit = true ∨ c = ':' ∨ c = '.') := by
  refine ⟨formatTime_neg_five, ?_⟩
  rw [formatTime_neg_five]
  intro hall
  have hdash := hall '-' (by decide)
  revert hdash
  decide

/-! ## `buildMasterPrompt` -/

/-- JS `String.prototype.toUpperCase` restricted to ASCII letters (the only
characters the fixed option strings contain). -/
def jsToUpperChar (c : Char) : Char :=
  match c with
  | 'a' => 'A' | 'b' => 'B' | 'c' => 'C' | 'd' => 'D' | 'e' => 'E' | 'f' => 'F'
  | 'g' => 'G' | 'h' => 'H' | 'i' => 'I' | 'j' => 'J' | 'k' => 'K' | 'l' => 'L'
  | 'm' => 'M' | 'n' => 'N' | 'o' => 'O' | 'p' => 'P' | 'q' => 'Q' | 'r' => 'R'
  | 's' => 'S' | 't' => 'T' | 'u' => 'U' | 'v' => 'V' | 'w' => 'W' | 'x' => 'X'
  | 'y' => 'Y' | 'z' => 'Z'
  | other => other

/-- JS `String.prototype.toLowerCase` restricted to ASCII letters. -/
def jsToLowerChar (c : Char) : Char :=
  match c with
  | 'A' => 'a' | 'B' => 'b' | 'C' => 'c' | 'D' => 'd' | 'E' => 'e' | 'F' => 'f'
  | 'G' => 'g' | 'H' => 'h' | 'I' => 'i' | 'J' => 'j' | 'K' => 'k' | 'L' => 'l'
  | 'M' => 'm' | 'N' => 'n' | 'O' => 'o' | 'P' => 'p' | 'Q' => 'q' | 'R' => 'r'
  | 'S' => 's' | 'T' => 't' | 'U' => 'u' | 'V' => 'v' | 'W' => 'w' | 'X' => 'x'
  | 'Y' => 'y' | 'Z' => 'z'
  | other => other

def jsToLower (s : String) : String := ⟨s.data.map jsToLowerChar⟩

/-- `capitalize` from the source: empty string for a falsy value, otherwise
the first character upper-cased and the rest unchanged. -/
def capitalize (value : String) : String :=
  match value.data with
  | [] => ""
  | c :: cs => ⟨jsToUpperChar c :: cs⟩

/-- The `focusOptions` constant: `(id, label)` pairs. -/
def focusOptions : List (String × String) :=
  [("visuals", "Visual Style"), ("lighting", "Lighting"),
   ("narrative", "Narrative Beats"), ("motion", "Motion & Energy"),
   ("mood", "Mood & Atmosphere"), ("audio", "Audio / Sound")]

/-- `focusLabel` from the source: the lower-cased label of a known focus id,
or the id itself. -/
def focusLabel (id : String) : String :=
  match focusOptions.find? (fun item => item.1 == id) with
  | some item => jsToLower item.2
  | none => id

/-- JS `Array.prototype.join(sep)`. -/
def joinSep (sep : String) : List String → String
  | [] => ""
  | [a] => a
  | a :: b :: rest => a ++ sep ++ joinSep sep (b :: rest)

/-- One scene record as consumed by `buildMasterPrompt`. -/
structure Scene where
  timestamp : ℚ
  analysis : SceneAnalysis
  summary : String

/-- The destructured configuration argument of `buildMasterPrompt`.  The
focus-area set is its `Array.from` image, in iteration order. -/
structure MasterConfig where
  projectTitle : String
  audienceNotes : String
  tone : String
  objective : String
  stylePreset : String
  focusAreas : List String
  customDirectives : String

/-- The twelve entries of the array literal inside `buildMasterPrompt`,
before `.filter(Boolean)`. -/
def masterPromptEntries (scenes : List Scene) (cfg : MasterConfig) : List String :=
  let focus := cfg.focusAreas
  let focusLine :=
    if focus.length ≠ 0 then
      "Prioritise " ++ joinSep ", " (focus.map focusLabel) ++ "."
    else ""
  let sceneLines := joinSep "\n" (scenes.map fun scene =>
    "- " ++ formatTime (JSNumber.finite scene.timestamp) ++ " · " ++
      scene.analysis.palette ++ ", " ++ scene.analysis.lighting ++ ", " ++
      scene.analysis.energy ++ ".")
  let summaryLines := joinSep "\n" (scenes.map fun scene => scene.summary)
  [if cfg.projectTitle ≠ "" then "Project: " ++ cfg.projectTitle
     else "Project: Untitled video prompt",
   "Objective: " ++ capitalize cfg.objective ++ " for AI generation.",
   "Creative tone: " ++ capitalize cfg.tone ++ " blended with " ++ cfg.stylePreset ++ ".",
   focusLine,
   if cfg.audienceNotes ≠ "" then "Audience / usage: " ++ cfg.audienceNotes else "",
   "",
   "Scene ingredients:",
   sceneLines,
   "",
   "Detailed prompt instructions:",
   summaryLines,
   if cfg.customDirectives ≠ "" then "\nExtra directives: " ++ cfg.customDirectives else ""]

/-- `buildMasterPrompt` from the source: the entry array, `.filter(Boolean)`
(which drops exactly the empty strings), then `.join("\n")`. -/
def buildMasterPrompt (scenes : List Scene) (cfg : MasterConfig) : String :=
  joinSep "\n" ((masterPromptEntries scenes cfg).filter fun s => s != "")

/-- Splitting a character list at newline characters (the lines of the
string, in the JS `split("\n")` sense, where consecutive newlines produce
empty segments). -/
def splitNL : List Char → List (List Char)
  | [] => [[]]
  | c :: cs =>
    let r := splitNL cs
    if c = '\n' then [] :: r
    else (c :: r.headD []) :: r.tail

/-- Witness for the amended C10 at `q = 5/2` (i.e. 2.5 seconds). -/
theorem format_time_spec_witness :
    formatTime JSNumber.nan = "00:00" ∧
    formatTime JSNumber.posInf = "00:00" ∧
    formatTime JSNumber.negInf = "00:00" ∧
    ∃ mf sf cf : List Char,
      (∀ c ∈ mf, c.isDigit = true) ∧ (∀ c ∈ sf, c.isDigit = true) ∧
      (∀ c ∈ cf, c.isDigit = true) ∧
      2 ≤ mf.length ∧ sf.length = 2 ∧ cf.length = 2 ∧
      (formatTime (JSNumber.finite (5/2))).data = mf ++ ':' :: (sf ++ '.' :: cf) :=
  format_time_spec (5/2) (by norm_num)



lemma splitNL_ne_nil (cs : List Char) : splitNL cs ≠ [] := by
  cases cs with
  | nil => simp [splitNL]
  | cons c cs =>
    rw [splitNL]
    split <;> simp

lemma splitNL_append_newline (xs ys : List Char) :
    splitNL (xs ++ '\n' :: ys) = splitNL xs ++ splitNL ys := by
  induction xs with
  | nil =>
    show splitNL ('\n' :: ys) = splitNL [] ++ splitNL ys
    rw [splitNL]
    simp [splitNL]
  | cons c cs ih =>
    show splitNL (c :: (cs ++ '\n' :: ys)) = splitNL (c :: cs) ++ splitNL ys
    rw [splitNL, ih]
    by_cases hc : c = '\n'
    · rw [if_pos hc]
      conv_rhs => rw [splitNL]
      rw [if_pos hc]
      simp
    · rw [if_neg hc]
      conv_rhs => rw [splitNL]
      rw [if_neg hc]
      obtain ⟨x, xs', hx⟩ := List.exists_cons_of_ne_nil (splitNL_ne_nil cs)
      rw [hx]
      simp

lemma splitNL_no_newline (cs : List Char) (h : '\n' ∉ cs) : splitNL cs = [cs] := by
  induction cs with
  | nil => rfl
  | cons c cs ih =>
    have hc : c ≠ '\n' := fun hc => h (hc ▸ List.mem_cons_self c cs)
    have hcs : '\n' ∉ cs := fun hm => h (List.mem_cons_of_mem _ hm)
    rw [splitNL, if_neg hc, ih hcs]
    rfl

lemma data_eq_nil_iff (s : String) : s.data = [] ↔ s = "" := by
  cases s with
  | mk l =>
    constructor
    · intro h
      rw [show l = ([] : List Char) from h]
    · intro h
      rw [h]

lemma append_ne_empty_left (s t : String) (h : s ≠ "") : s ++ t ≠ "" := by
  intro hc
  have : (s ++ t).data = [] := (data_eq_nil_iff _).2 hc
  rw [String.data_append, List.append_eq_nil] at this
  exact h ((data_eq_nil_iff s).1 this.1)

lemma singleLine_no_empty (s : String) (hne : s ≠ "") (hnl : '\n' ∉ s.data) :
    [] ∉ splitNL s.data := by
  rw [splitNL_no_newline _ hnl]
  intro hmem
  rcases List.mem_singleton.1 hmem with h
  exact hne ((data_eq_nil_iff s).1 h.symm)

lemma joinSep_no_empty (l : List String) (hne : l ≠ [])
    (h : ∀ e ∈ l, [] ∉ splitNL e.data) :
    [] ∉ splitNL (joinSep "\n" l).data := by
  induction l with
  | nil => exact absurd rfl hne
  | cons a rest ih =>
    cases rest with
    | nil =>
      show [] ∉ splitNL (joinSep "\n" [a]).data
      exact h a (List.mem_cons_self _ _)
    | cons b rest2 =>
      show [] ∉ splitNL (a ++ "\n" ++ joinSep "\n" (b :: rest2)).data
      have hdata : (a ++ "\n" ++ joinSep "\n" (b :: rest2)).data
          = a.data ++ '\n' :: (joinSep "\n" (b :: rest2)).data := by
        rw [String.data_append, String.data_append]
        simp
      rw [hdata, splitNL_append_newline]
      intro hmem
      rcases List.mem_append.1 hmem with hmem | hmem
      · exact h a (List.mem_cons_self _ _) hmem
      · exact ih (by simp) (fun e he => h e (List.mem_cons_of_mem _ he)) hmem

lemma joinSep_no_newline (sep : String) (l : List String)
    (hsep : '\n' ∉ sep.data) (h : ∀ e ∈ l, '\n' ∉ e.data) :
    '\n' ∉ (joinSep sep l).data := by
  induction l with
  | nil => simp [joinSep]
  | cons a rest ih =>
    cases rest with
    | nil => exact h a (List.mem_cons_self _ _)
    | cons b rest2 =>
      show '\n' ∉ (a ++ sep ++ joinSep sep (b :: rest2)).data
      simp only [String.data_append, List.mem_append]
      push_neg
      exact ⟨⟨h a (List.mem_cons_self _ _), hsep⟩,
        ih (fun e he => h e (List.mem_cons_of_mem _ he))⟩



lemma jsToUpperChar_ne_newline (c : Char) (h : c ≠ '\n') : jsToUpperChar c ≠ '\n' := by
  unfold jsToUpperChar
  split <;> first | decide | assumption

lemma capitalize_no_newline (s : String) (h : '\n' ∉ s.data) :
    '\n' ∉ (capitalize s).data := by
  cases s with
  | mk l =>
    cases l with
    | nil => simp [capitalize]
    | cons c cs =>
      show '\n' ∉ (jsToUpperChar c :: cs)
      intro hmem
      rcases List.mem_cons.1 hmem with heq | hmem'
      · exact jsToUpperChar_ne_newline c
          (fun hc => h (by rw [← hc]; exact List.mem_cons_self _ _)) heq.symm
      · exact h (List.mem_cons_of_mem _ hmem')

lemma natToString_no_newline (n : ℕ) : '\n' ∉ (natToString n).data := by
  intro hmem
  have := natToString_digits n '\n' hmem
  exact absurd this (by decide)

lemma intToString_no_newline (i : ℤ) : '\n' ∉ (intToString i).data := by
  rw [intToString]
  split
  · rw [String.data_append]
    intro hmem
    rcases List.mem_append.1 hmem with hmem | hmem
    · revert hmem; decide
    · exact natToString_no_newline _ hmem
  · exact natToString_no_newline _

lemma jsPadStart_no_newline (s : String) (h : '\n' ∉ s.data) :
    '\n' ∉ (jsPadStart s 2 '0').data := by
  show '\n' ∉ List.replicate (2 - s.data.length) '0' ++ s.data
  intro hmem
  rcases List.mem_append.1 hmem with hmem | hmem
  · have := List.eq_of_mem_replicate hmem
    exact absurd this (by decide)
  · exact h hmem

lemma formatTime_no_newline (x : JSNumber) : '\n' ∉ (formatTime x).data := by
  cases x with
  | nan => decide
  | posInf => decide
  | negInf => decide
  | finite q =>
    show '\n' ∉ (jsPadStart (intToString ⌊q / 60⌋) 2 '0' ++ ":" ++
      jsPadStart (intToString ⌊jsRem q 60⌋) 2 '0' ++ "." ++
      jsPadStart (intToString ⌊((⌊(q - (⌊q⌋ : ℚ)) * 1000⌋ : ℤ) : ℚ) / 10⌋) 2 '0').data
    simp only [String.data_append, List.mem_append]
    push_neg
    refine ⟨⟨⟨⟨?_, by decide⟩, ?_⟩, by decide⟩, ?_⟩ <;>
      exact jsPadStart_no_newline _ (intToString_no_newline _)



lemma append_no_newline (a b : String) (ha : '\n' ∉ a.data) (hb : '\n' ∉ b.data) :
    '\n' ∉ (a ++ b).data := by
  rw [String.data_append]
  intro hmem
  rcases List.mem_append.1 hmem with hmem | hmem
  · exact ha hmem
  · exact hb hmem

/-- C7 (amended): `buildMasterPrompt` includes the "Audience / usage" line
iff `audienceNotes` is non-empty and the "Prioritise ..." line iff at least
one focus area is selected; and the newline-joined result contains no empty
line provided `customDirectives` is empty (a non-empty one is emitted as
`"\nExtra directives: ..."`, whose leading newline creates an empty line)
and the free-text fields, focus labels, scene summaries and scene analysis
strings are themselves newline-free, with summaries non-empty. -/
theorem master_prompt_lines (scenes : List Scene) (cfg : MasterConfig)
    (hcd : cfg.customDirectives = "")
    (hpt : '\n' ∉ cfg.projectTitle.data)
    (han : '\n' ∉ cfg.audienceNotes.data)
    (hto : '\n' ∉ cfg.tone.data)
    (hob : '\n' ∉ cfg.objective.data)
    (hsp : '\n' ∉ cfg.stylePreset.data)
    (hfa : ∀ fid ∈ cfg.focusAreas, '\n' ∉ (focusLabel fid).data)
    (hsc : ∀ s ∈ scenes, s.summary ≠ "" ∧ '\n' ∉ s.summary.data ∧
      '\n' ∉ s.analysis.palette.data ∧ '\n' ∉ s.analysis.lighting.data ∧
      '\n' ∉ s.analysis.energy.data) :
    ((if cfg.audienceNotes ≠ "" then "Audience / usage: " ++ cfg.audienceNotes else "") ∈
        (masterPromptEntries scenes cfg).filter (fun s => s != "") ↔
      cfg.audienceNotes ≠ "") ∧
    ((if cfg.focusAreas.length ≠ 0 then
        "Prioritise " ++ joinSep ", " (cfg.focusAreas.map focusLabel) ++ "." else "") ∈
        (masterPromptEntries scenes cfg).filter (fun s => s != "") ↔
      cfg.focusAreas ≠ []) ∧
    [] ∉ splitNL (buildMasterPrompt scenes cfg).data := by
  have hmemfilter : ∀ e : String,
      e ∈ (masterPromptEntries scenes cfg).filter (fun s => s != "") ↔
        e ∈ masterPromptEntries scenes cfg ∧ e ≠ "" := by
    intro e
    rw [List.mem_filter]
    simp
  refine ⟨?_, ?_, ?_⟩
  · by_cases h : cfg.audienceNotes = ""
    · rw [if_neg (not_not_intro h)]
      constructor
      · intro hm
        exact absurd rfl ((hmemfilter "").1 hm).2
      · intro hr
        exact absurd h hr
    · rw [if_pos h]
      constructor
      · intro _
        exact h
      · intro _
        refine (hmemfilter _).2 ⟨?_, append_ne_empty_left _ _ (by decide)⟩
        simp [masterPromptEntries, h]
  · by_cases h : cfg.focusAreas.length = 0
    · rw [if_neg (not_not_intro h)]
      constructor
      · intro hm
        exact absurd rfl ((hmemfilter "").1 hm).2
      · intro hr
        exact absurd (List.length_eq_zero.1 h) hr
    · rw [if_pos h]
      constructor
      · intro _
        exact fun hnil => h (by rw [hnil]; rfl)
      · intro _
        refine (hmemfilter _).2 ⟨?_, append_ne_empty_left _ _ (append_ne_empty_left _ _ (by decide))⟩
        simp [masterPromptEntries, h]
  · rw [buildMasterPrompt]
    apply joinSep_no_empty
    · intro hnil
      have hobj : ("Objective: " ++ capitalize cfg.objective ++ " for AI generation." : String) ∈
          (masterPromptEntries scenes cfg).filter (fun s => s != "") := by
        refine (hmemfilter _).2 ⟨?_, append_ne_empty_left _ _ (append_ne_empty_left _ _ (by decide))⟩
        simp [masterPromptEntries]
      rw [hnil] at hobj
      exact absurd hobj (List.not_mem_nil _)
    · intro e he
      obtain ⟨hel, hene⟩ := (hmemfilter e).1 he
      simp only [masterPromptEntries, List.mem_cons, List.not_mem_nil, or_false] at hel
      rcases hel with rfl | rfl | rfl | rfl | rfl | rfl | rfl | rfl | rfl | rfl | rfl | rfl
      · by_cases hpt0 : cfg.projectTitle = ""
        · rw [if_neg (not_not_intro hpt0)]
          decide
        · rw [if_pos hpt0]
          exact singleLine_no_empty _ (append_ne_empty_left _ _ (by decide))
            (append_no_newline _ _ (by decide) hpt)
      · exact singleLine_no_empty _ (append_ne_empty_left _ _ (append_ne_empty_left _ _ (by decide)))
          (append_no_newline _ _ (append_no_newline _ _ (by decide) (capitalize_no_newline _ hob))
            (by decide))
      · exact singleLine_no_empty _
          (append_ne_empty_left _ _ (append_ne_empty_left _ _ (append_ne_empty_left _ _
            (append_ne_empty_left _ _ (by decide)))))
          (append_no_newline _ _
            (append_no_newline _ _
              (append_no_newline _ _
                (append_no_newline _ _ (by decide) (capitalize_no_newline _ hto))
                (by decide))
              hsp)
            (by decide))
      · by_cases hf : cfg.focusAreas.length = 0
        · rw [if_neg (not_not_intro hf)] at hene ⊢
          exact absurd rfl hene
        · rw [if_pos hf]
          refine singleLine_no_empty _
            (append_ne_empty_left _ _ (append_ne_empty_left _ _ (by decide)))
            (append_no_newline _ _ (append_no_newline _ _ (by decide) ?_) (by decide))
          refine joinSep_no_newline _ _ (by decide) ?_
          intro x hx
          obtain ⟨fid, hfid, rfl⟩ := List.mem_map.1 hx
          exact hfa fid hfid
      · by_cases h : cfg.audienceNotes = ""
        · rw [if_neg (not_not_intro h)] at hene ⊢
          exact absurd rfl hene
        · rw [if_pos h]
          exact singleLine_no_empty _ (append_ne_empty_left _ _ (by decide))
            (append_no_newline _ _ (by decide) han)
      · exact absurd rfl hene
      · decide
      · by_cases hscn : scenes = []
        · subst hscn
          exact absurd rfl hene
        · refine joinSep_no_empty _ ?_ ?_
          · intro hmapnil
            exact hscn (List.map_eq_nil_iff.1 hmapnil)
          · intro line hline
            obtain ⟨s, hs, rfl⟩ := List.mem_map.1 hline
            obtain ⟨hsum, hsumnl, hpal, hlig, hen⟩ := hsc s hs
            refine singleLine_no_empty _ ?_ ?_
            · exact append_ne_empty_left _ _ (append_ne_empty_left _ _ (append_ne_empty_left _ _
                (append_ne_empty_left _ _ (append_ne_empty_left _ _ (append_ne_empty_left _ _
                  (append_ne_empty_left _ _ (append_ne_empty_left _ _ (by decide))))))))
            · refine append_no_newline _ _ ?_ (by decide)
              refine append_no_newline _ _ ?_ hen
              refine append_no_newline _ _ ?_ (by decide)
              refine append_no_newline _ _ ?_ hlig
              refine append_no_newline _ _ ?_ (by decide)
              refine append_no_newline _ _ ?_ hpal
              refine append_no_newline _ _ ?_ (by decide)
              exact append_no_newline _ _ (by decide) (formatTime_no_newline _)
      · exact absurd rfl hene
      · decide
      · by_cases hscn : scenes = []
        · subst hscn
          exact absurd rfl hene
        · refine joinSep_no_empty _ ?_ ?_
          · intro hmapnil
            exact hscn (List.map_eq_nil_iff.1 hmapnil)
          · intro line hline
            obtain ⟨s, hs, rfl⟩ := List.mem_map.1 hline
            obtain ⟨hsum, hsumnl, _, _, _⟩ := hsc s hs
            exact singleLine_no_empty _ hsum hsumnl
      · rw [if_neg (not_not_intro hcd)] at hene ⊢
        exact absurd rfl hene


/-- C7 counterexample: with no scenes, empty title/audience/focus and
`customDirectives = "x"`, the last kept entry is `"\nExtra directives: x"`;
its leading newline makes the compiled prompt contain an empty line. -/
theorem master_prompt_cex :
    [] ∈ splitNL (buildMasterPrompt []
      ⟨"", "", "cinematic realism", "storyboard breakdown", "hyper-detailed", [], "x"⟩).data := by
  decide

/-- A concrete configuration used to witness the amended C7. -/
def witnessConfig : MasterConfig :=
  ⟨"Aurora", "print campaign", "moody noir", "narrative prompt", "grounded and minimalist",
   ["visuals"], ""⟩

/-- Witness for the amended C7 at `witnessConfig` with no scenes. -/
theorem master_prompt_lines_witness :
    ((if witnessConfig.audienceNotes ≠ "" then
        "Audience / usage: " ++ witnessConfig.audienceNotes else "") ∈
        (masterPromptEntries [] witnessConfig).filter (fun s => s != "") ↔
      witnessConfig.audienceNotes ≠ "") ∧
    ((if witnessConfig.focusAreas.length ≠ 0 then
        "Prioritise " ++ joinSep ", " (witnessConfig.focusAreas.map focusLabel) ++ "."
      else "") ∈
        (masterPromptEntries [] witnessConfig).filter (fun s => s != "") ↔
      witnessConfig.focusAreas ≠ []) ∧
    [] ∉ splitNL (buildMasterPrompt [] witnessConfig).data :=
  master_prompt_lines [] witnessConfig rfl (by decide) (by decide) (by decide) (by decide)
    (by decide)
    (fun fid hfid => by rw [List.mem_singleton.1 hfid]; decide)
    (fun s hs => absurd hs (List.not_mem_nil s))

end VideoPrompt
